import Mathlib

/-!
The query layer of `model.go` (eggchan-go).

A shallow embedding of the relational store and of the SQL statements that
`model.go` sends to it.  A table is the list of its rows in the order a plain
scan (`SELECT ... FROM t` with no `ORDER BY`) returns them; `INSERT` appends a
row at the end of that list.  SQL `NULL` is `none`.  Times are ordinal
instants (`Nat`).  Row identities (`id`) are numeric.

Columns that the Go code scans into non-nullable destinations and that the
statements never leave empty (`threads.post_num`, `threads.time`,
`comments.time`, ...) are non-optional fields; columns scanned into
`null.String` / `null.Time` are `Option`.
-/

namespace Eggchan

/-! ## The store -/

/-- Row of `categories`: the statements use `categories.id` and `categories.name`. -/
structure CategoryRow where
  id : Nat
  name : String
deriving DecidableEq, Repr

/-- Row of `boards`: `id, name, description, category, bump_limit`. -/
structure BoardRow where
  id : Nat
  name : String
  description : Option String
  category : Option Nat
  bump_limit : Nat
deriving DecidableEq, Repr

/-- Row of `threads`: `id, board_id, post_num, subject, author, time, comment`. -/
structure ThreadRow where
  id : Nat
  board_id : Nat
  post_num : Nat
  subject : Option String
  author : String
  time : Nat
  comment : String
deriving DecidableEq, Repr

/-- Row of `comments`: `id, reply_to, post_num, author, time, comment`. -/
structure CommentRow where
  id : Nat
  reply_to : Nat
  post_num : Nat
  author : String
  time : Nat
  comment : String
deriving DecidableEq, Repr

/-- The relational store behind the `*sql.DB` handle. -/
structure Store where
  categories : List CategoryRow
  boards : List BoardRow
  threads : List ThreadRow
  comments : List CommentRow
deriving DecidableEq, Repr

/-- Failures a call can return.
`noRows` is `sql.ErrNoRows` (a `QueryRow(...).Scan` on an empty result),
`scanNull` is the `Scan` error for a `NULL` column read into a non-nullable Go
value, `notNullViolation` is the store rejecting an `INSERT` whose non-null
column is `NULL`, `cardinality` is the store rejecting a scalar sub-query that
yields more than one row. -/
inductive DbError where
  | noRows
  | scanNull
  | notNullViolation
  | cardinality
deriving DecidableEq, Repr

/-- Values the store itself supplies for the columns an `INSERT` of `model.go`
leaves out (`id`, `post_num`, `time`): column defaults of the schema. -/
structure RowDefaults where
  id : Nat
  post_num : Nat
  time : Nat
deriving DecidableEq, Repr

deriving instance DecidableEq for Except

/-! ## Result records (the Go structs) -/

/-- Go struct `category`. -/
structure category where
  Name : String
deriving DecidableEq, Repr

/-- Go struct `board`; `null.String` is `Option String`. -/
structure board where
  Name : String
  Description : Option String
  Category : Option String
deriving DecidableEq, Repr

/-- Go struct `thread`; `SortLatestReply` is a plain `time.Time`. -/
structure thread where
  PostNum : Nat
  Subject : Option String
  Author : String
  Time : Nat
  NumReplies : Nat
  LatestReply : Option Nat
  Comment : String
  SortLatestReply : Nat
deriving DecidableEq, Repr

/-- Go struct `post`. -/
structure post where
  PostNum : Nat
  Author : String
  Time : Nat
  Comment : String
deriving DecidableEq, Repr

/-- Go struct `boardReply`. -/
structure boardReply where
  Board : board
  Threads : List thread
deriving DecidableEq, Repr

/-- Go struct `threadReply`. -/
structure threadReply where
  Thread : thread
  Posts : List post
deriving DecidableEq, Repr

/-! ## SQL building blocks -/

/-- A scalar sub-query `(SELECT col FROM ...)`: `NULL` on no row, the value on
one row, an error on more than one. -/
def scalarSubquery {α : Type} : List α → Except DbError (Option α)
  | [] => .ok none
  | [a] => .ok (some a)
  | _ :: _ :: _ => .error .cardinality

/-- SQL `MAX(...)` over a group: `NULL`s are skipped, `NULL` when nothing is left. -/
def sqlMax : List (Option Nat) → Option Nat
  | [] => none
  | none :: xs => sqlMax xs
  | some a :: xs =>
    match sqlMax xs with
    | none => some a
    | some b => some (max a b)

/-- `(SELECT id FROM boards WHERE name = $1)`. -/
def boardIdQuery (s : Store) (name : String) : List Nat :=
  (s.boards.filter (fun b => b.name == name)).map (fun b => b.id)

/-- `(SELECT bump_limit FROM boards WHERE name = $1)`. -/
def bumpLimitQuery (s : Store) (name : String) : List Nat :=
  (s.boards.filter (fun b => b.name == name)).map (fun b => b.bump_limit)

/-- `(SELECT comments.time FROM comments OFFSET n LIMIT 1)`: the scan of the
whole `comments` table, `n` rows skipped, one row kept.  No `WHERE`, no
`ORDER BY`.  `OFFSET NULL` skips nothing. -/
def offsetCommentTime (s : Store) (n : Option Nat) : Option Nat :=
  ((s.comments.map (fun c => c.time)).drop (n.getD 0)).head?

/-- `(SELECT COUNT(*) FROM comments WHERE comments.reply_to = threads.id)`. -/
def numRepliesQuery (s : Store) (t : ThreadRow) : Nat :=
  (s.comments.filter (fun c => c.reply_to == t.id)).length

/-- The group of `threads LEFT JOIN comments ON threads.id = comments.reply_to`
for one thread row (`GROUP BY threads.id`, the primary key): one joined row per
comment of the thread, or a single row with `NULL` comment columns. -/
def leftJoinComments (s : Store) (t : ThreadRow) : List (Option CommentRow) :=
  match s.comments.filter (fun c => c.reply_to == t.id) with
  | [] => [none]
  | c :: cs => (c :: cs).map some

/-- One result row of the thread query of `showBoardFromDB` / `showThreadFromDB`. -/
structure ThreadQueryRow where
  post_num : Nat
  subject : Option String
  author : String
  time : Nat
  num_replies : Nat
  latest_reply : Option Nat
  comment : String
  sort_latest_reply : Option Nat
deriving DecidableEq, Repr

/-- The `CASE ... END AS sort_latest_reply` expression over one group.
`cnt` is `COUNT(*)`, `mx` is `MAX(comments.time)`, `bump` is the value of
`(SELECT bump_limit FROM boards WHERE name = $1)`; a comparison with `NULL`
is not true. -/
def sortLatestReplyExpr (s : Store) (bump : Option Nat) (t : ThreadRow)
    (cnt : Nat) (mx : Option Nat) : Option Nat :=
  if mx.isSome && (match bump with | some n => decide (n ≤ cnt) | none => false) then
    offsetCommentTime s bump
  else if mx.isSome then
    mx
  else
    some t.time

/-- The select list of the thread query, evaluated on the group of thread `t`. -/
def threadQueryRow (s : Store) (bump : Option Nat) (t : ThreadRow) : ThreadQueryRow :=
  let g := leftJoinComments s t
  let mx := sqlMax (g.map (fun oc => oc.map (fun c => c.time)))
  { post_num := t.post_num
    subject := t.subject
    author := t.author
    time := t.time
    num_replies := numRepliesQuery s t
    latest_reply := mx
    comment := t.comment
    sort_latest_reply := sortLatestReplyExpr s bump t g.length mx }

/-- Order of two sort keys under `ORDER BY sort_latest_reply DESC`: `a` may
stand before `b`.  The store puts `NULL` first in a descending order. -/
def sortKeyGe : Option Nat → Option Nat → Bool
  | none, _ => true
  | some _, none => false
  | some x, some y => decide (y ≤ x)

/-- Relation behind `ORDER BY sort_latest_reply DESC` on result rows. -/
def rowGe (a b : ThreadQueryRow) : Prop :=
  sortKeyGe a.sort_latest_reply b.sort_latest_reply = true

instance : DecidableRel rowGe := fun a b =>
  inferInstanceAs (Decidable (sortKeyGe a.sort_latest_reply b.sort_latest_reply = true))

instance : IsTotal ThreadQueryRow rowGe where
  total a b := by
    unfold rowGe
    cases ha : a.sort_latest_reply <;> cases hb : b.sort_latest_reply <;>
      simp [sortKeyGe]
    exact Nat.le_total _ _

instance : IsTrans ThreadQueryRow rowGe where
  trans a b c := by
    unfold rowGe
    cases ha : a.sort_latest_reply <;> cases hb : b.sort_latest_reply <;>
      cases hc : c.sort_latest_reply <;> simp [sortKeyGe]
    intro h1 h2
    exact Nat.le_trans h2 h1

/-- `rows.Scan(&t.PostNum, ..., &t.SortLatestReply)`: every destination but
`Subject` and `LatestReply` is non-nullable, and only `sort_latest_reply` can
be `NULL` among the columns they read. -/
def scanThread (r : ThreadQueryRow) : Except DbError thread :=
  match r.sort_latest_reply with
  | none => .error .scanNull
  | some st =>
    .ok { PostNum := r.post_num
          Subject := r.subject
          Author := r.author
          Time := r.time
          NumReplies := r.num_replies
          LatestReply := r.latest_reply
          Comment := r.comment
          SortLatestReply := st }

/-- The `for rows.Next() { Scan; append }` loop: stops at the first failing scan. -/
def scanThreads : List ThreadQueryRow → Except DbError (List thread)
  | [] => .ok []
  | r :: rs =>
    match scanThread r with
    | .error e => .error e
    | .ok t =>
      match scanThreads rs with
      | .error e => .error e
      | .ok ts => .ok (t :: ts)

/-- `b_row.Scan(&b.Name, &b.Description, &b.Category)` in `showBoardFromDB`:
the third column is `boards.category` itself, the numeric reference, which a
`null.String` receives as its decimal text. -/
def scanBoardRow (b : BoardRow) : board :=
  { Name := b.name
    Description := b.description
    Category := b.category.map (fun k => Nat.repr k) }

/-- The thread query of `showBoardFromDB`: rows of `threads` whose `board_id`
equals the board sub-query, one result row per thread, ordered by
`sort_latest_reply DESC` (ties keep scan order). -/
def boardThreadsQuery (s : Store) (name : String) : Except DbError (List ThreadQueryRow) :=
  match scalarSubquery (boardIdQuery s name), scalarSubquery (bumpLimitQuery s name) with
  | .ok bid, .ok bump =>
    .ok (List.insertionSort rowGe
      ((s.threads.filter (fun t => some t.board_id == bid)).map (threadQueryRow s bump)))
  | .error e, _ => .error e
  | _, .error e => .error e

/-- Go `showBoardFromDB(db, name)`. -/
def showBoardFromDB (s : Store) (name : String) : Except DbError boardReply :=
  match s.boards.filter (fun b => b.name == name) with
  | [] => .error .noRows
  | b :: _ =>
    match boardThreadsQuery s name with
    | .error e => .error e
    | .ok rows =>
      match scanThreads rows with
      | .error e => .error e
      | .ok threads => .ok { Board := scanBoardRow b, Threads := threads }

/-- The thread query of `showThreadFromDB`: the board query with the extra
condition `AND threads.post_num = $2`. -/
def threadQuery (s : Store) (board_name : String) (thread_num : Nat) :
    Except DbError (List ThreadQueryRow) :=
  match scalarSubquery (boardIdQuery s board_name),
        scalarSubquery (bumpLimitQuery s board_name) with
  | .ok bid, .ok bump =>
    .ok (List.insertionSort rowGe
      ((s.threads.filter (fun t => some t.board_id == bid && t.post_num == thread_num)).map
        (threadQueryRow s bump)))
  | .error e, _ => .error e
  | _, .error e => .error e

/-- `(SELECT threads.id FROM threads INNER JOIN boards ON threads.board_id =
boards.id WHERE boards.name = $1 AND threads.post_num = $2)`. -/
def threadIdQuery (s : Store) (board_name : String) (thread_num : Nat) : List Nat :=
  s.threads.flatMap (fun t =>
    (s.boards.filter (fun b =>
      t.board_id == b.id && b.name == board_name && t.post_num == thread_num)).map
      (fun _ => t.id))

/-- Relation behind `ORDER BY post_num ASC` on comment rows. -/
def commentLe (a b : CommentRow) : Prop := a.post_num ≤ b.post_num

instance : DecidableRel commentLe := fun a b =>
  inferInstanceAs (Decidable (a.post_num ≤ b.post_num))

/-- The comment query of `showThreadFromDB`: `comments INNER JOIN threads ON
comments.reply_to = threads.id`, restricted to the board sub-query and to the
thread-id sub-query, ordered by `post_num ASC`. -/
def postsQuery (s : Store) (board_name : String) (thread_num : Nat) :
    Except DbError (List CommentRow) :=
  match scalarSubquery (boardIdQuery s board_name),
        scalarSubquery (threadIdQuery s board_name thread_num) with
  | .ok bid, .ok tid =>
    .ok (List.insertionSort commentLe
      (s.comments.flatMap (fun c =>
        (s.threads.filter (fun t =>
          c.reply_to == t.id && some t.board_id == bid && some c.reply_to == tid)).map
          (fun _ => c))))
  | .error e, _ => .error e
  | _, .error e => .error e

/-- `c_rows.Scan(&p.PostNum, &p.Author, &p.Time, &p.Comment)`. -/
def scanPost (c : CommentRow) : post :=
  { PostNum := c.post_num, Author := c.author, Time := c.time, Comment := c.comment }

/-- Go `showThreadFromDB(db, board, thread_num)`: `QueryRow` keeps the first
row of the thread query and `Scan` reports `sql.ErrNoRows` when there is none. -/
def showThreadFromDB (s : Store) (board_name : String) (thread_num : Nat) :
    Except DbError threadReply :=
  match threadQuery s board_name thread_num with
  | .error e => .error e
  | .ok [] => .error .noRows
  | .ok (r :: _) =>
    match scanThread r with
    | .error e => .error e
    | .ok t =>
      match postsQuery s board_name thread_num with
      | .error e => .error e
      | .ok cs => .ok { Thread := t, Posts := cs.map scanPost }

/-- Relation behind `ORDER BY boards.name ASC`. -/
def boardNameLe (a b : board) : Prop := a.Name ≤ b.Name

instance : DecidableRel boardNameLe := fun a b =>
  inferInstanceAs (Decidable (a.Name ≤ b.Name))

/-- Rows of `boards LEFT JOIN categories ON boards.category = categories.id`
for one board, projected on `boards.name, boards.description, categories.name`. -/
def boardJoinCategories (s : Store) (b : BoardRow) : List board :=
  match s.categories.filter (fun c => b.category == some c.id) with
  | [] => [{ Name := b.name, Description := b.description, Category := none }]
  | c :: cs =>
    (c :: cs).map (fun k =>
      { Name := b.name, Description := b.description, Category := some k.name })

/-- Go `getBoardsFromDB(db)`. -/
def getBoardsFromDB (s : Store) : Except DbError (List board) :=
  .ok (List.insertionSort boardNameLe (s.boards.flatMap (boardJoinCategories s)))

/-- Modelled from the spec: the table declarations are not part of `model.go`;
the spec says an insert whose parent reference does not resolve "violates the
non-null foreign key and the store reports a constraint failure", so
`threads.board_id` and `comments.reply_to` are `NOT NULL` columns. -/
def requireNotNull {α : Type} : Option α → Except DbError α
  | none => .error .notNullViolation
  | some a => .ok a

/-- `CASE WHEN $4 = '' THEN NULL ELSE $4 END`. -/
def subjectValue (subject : String) : Option String :=
  if subject == "" then none else some subject

/-- Go `makeThreadInDB(db, board, comment, author, subject)`: the result and
the store after the call.  The store reports a rejected statement as the error
of `db.Query`, and a rejected statement leaves the store as it was. -/
def makeThreadInDB (s : Store) (d : RowDefaults) (board_name comment author subject : String) :
    Except DbError Nat × Store :=
  match scalarSubquery (boardIdQuery s board_name) with
  | .error e => (.error e, s)
  | .ok obid =>
    match requireNotNull obid with
    | .error e => (.error e, s)
    | .ok bid =>
      (.ok d.post_num,
        { s with threads := s.threads ++
            [{ id := d.id, board_id := bid, post_num := d.post_num,
               subject := subjectValue subject, author := author, time := d.time,
               comment := comment }] })

/-- Go `makePostInDB(db, board, thread, comment, author)`: the result and the
store after the call.  The store reports a rejected statement as the error of
`db.Query`, and a rejected statement leaves the store as it was. -/
def makePostInDB (s : Store) (d : RowDefaults) (board_name : String) (thread_num : Nat)
    (comment author : String) : Except DbError Nat × Store :=
  match scalarSubquery (threadIdQuery s board_name thread_num) with
  | .error e => (.error e, s)
  | .ok otid =>
    match requireNotNull otid with
    | .error e => (.error e, s)
    | .ok tid =>
      (.ok d.post_num,
        { s with comments := s.comments ++
            [{ id := d.id, reply_to := tid, post_num := d.post_num, author := author,
               time := d.time, comment := comment }] })

/-- The row list of the query of `checkIsOp`: `SELECT post_num FROM threads
INNER JOIN boards ON threads.board_id = boards.id WHERE threads.board_id =
(SELECT id FROM boards WHERE name = $1) AND threads.post_num = $2`. -/
def isOpQuery (s : Store) (board_name : String) (thread_num : Nat) :
    Except DbError (List Nat) :=
  match scalarSubquery (boardIdQuery s board_name) with
  | .error e => .error e
  | .ok bid =>
    .ok (s.threads.flatMap (fun t =>
      (s.boards.filter (fun b =>
        t.board_id == b.id && some t.board_id == bid && t.post_num == thread_num)).map
        (fun _ => t.post_num)))

/-- Go `checkIsOp(db, board, thread)`: `len(posts) == 0` gives `false`. -/
def checkIsOp (s : Store) (board_name : String) (thread_num : Nat) : Except DbError Bool :=
  match isOpQuery s board_name thread_num with
  | .error e => .error e
  | .ok posts => .ok (!posts.isEmpty)

/-! ## Schema constraints -/

/-- Constraint `boards.name UNIQUE`. -/
def uniqueBoardNames (s : Store) : Prop := (s.boards.map (fun b => b.name)).Nodup

/-- Constraint: a post number is used once per board. -/
def uniqueThreadNums (s : Store) : Prop :=
  (s.threads.map (fun t => (t.board_id, t.post_num))).Nodup

/-- Constraint: `comments.reply_to` references an existing `threads.id`. -/
def commentsReferThreads (s : Store) : Prop :=
  ∀ c ∈ s.comments, c.reply_to ∈ s.threads.map (fun t => t.id)

instance (s : Store) : Decidable (uniqueBoardNames s) :=
  inferInstanceAs (Decidable (List.Nodup _))

instance (s : Store) : Decidable (uniqueThreadNums s) :=
  inferInstanceAs (Decidable (List.Nodup _))

instance (s : Store) : Decidable (commentsReferThreads s) :=
  inferInstanceAs (Decidable (∀ c ∈ s.comments, _))

/-! ## Sample stores -/

/-- A board `a` with `bump_limit = 3` under category `tech`. -/
def boardA : BoardRow :=
  { id := 1, name := "a", description := some "general", category := some 7, bump_limit := 3 }

/-- Thread number 1 of board `a`, created at time 5. -/
def threadT : ThreadRow :=
  { id := 1, board_id := 1, post_num := 1, subject := some "hello", author := "anon",
    time := 5, comment := "first" }

/-- Comment `k` of thread `tid`, posted at time `10 * k`. -/
def mkComment (k tid : Nat) : CommentRow :=
  { id := k, reply_to := tid, post_num := k + 1, author := "anon", time := 10 * k,
    comment := "re" }

/-- Board `a`, thread `T` with comments at times 10 < 20 < 30 < 40. -/
def storeFour : Store :=
  { categories := [{ id := 7, name := "tech" }]
    boards := [boardA]
    threads := [threadT]
    comments := [mkComment 1 1, mkComment 2 1, mkComment 3 1, mkComment 4 1] }

/-- A second board `b` with `bump_limit = 3`, uncategorized. -/
def boardB : BoardRow :=
  { id := 2, name := "b", description := none, category := none, bump_limit := 3 }

/-- Thread number 2 of board `a`, created at time 15. -/
def threadU : ThreadRow :=
  { id := 2, board_id := 1, post_num := 2, subject := none, author := "anon",
    time := 15, comment := "second" }

/-- Thread number 1 of board `b`, created at time 50. -/
def threadV : ThreadRow :=
  { id := 3, board_id := 2, post_num := 1, subject := none, author := "anon",
    time := 50, comment := "elsewhere" }

/-- Boards `a` and `b`; on `a` thread `T` with comments at 10 < 20 and thread
`U` without comments; on `b` thread `V` with one comment at 30. -/
def storeListing : Store :=
  { categories := [{ id := 7, name := "tech" }]
    boards := [boardA, boardB]
    threads := [threadT, threadU, threadV]
    comments := [mkComment 1 1, mkComment 2 1, mkComment 3 3] }

/-- The reply of `showBoardFromDB` for board `a` of `storeListing`. -/
def replyListing : boardReply :=
  { Board := { Name := "a", Description := some "general", Category := some "7" }
    Threads :=
      [{ PostNum := 1, Subject := some "hello", Author := "anon", Time := 5, NumReplies := 2,
         LatestReply := some 20, Comment := "first", SortLatestReply := 20 },
       { PostNum := 2, Subject := none, Author := "anon", Time := 15, NumReplies := 0,
         LatestReply := none, Comment := "second", SortLatestReply := 15 }] }

/-- Board `a`, thread `T` with comments at times 10 < 20 < 30 and no other
comment in the store: the thread has exactly `bump_limit` comments. -/
def storeExact : Store :=
  { categories := [{ id := 7, name := "tech" }]
    boards := [boardA]
    threads := [threadT]
    comments := [mkComment 1 1, mkComment 2 1, mkComment 3 1] }

/-- Board `a`, thread `T` with comments at times 10 < 20 < 30, and thread `U`
with one later comment at time 90. -/
def storeCross : Store :=
  { categories := [{ id := 7, name := "tech" }]
    boards := [boardA]
    threads := [threadT, threadU]
    comments := [mkComment 1 1, mkComment 2 1, mkComment 3 1, mkComment 9 2] }

/-! ## Projections used to state the results -/

/-- The stored columns of a thread as they appear in a `thread` record. -/
def threadKey (t : thread) : Nat × Option String × String × Nat × String :=
  (t.PostNum, t.Subject, t.Author, t.Time, t.Comment)

/-- The same columns of a row of `threads`. -/
def rowKey (t : ThreadRow) : Nat × Option String × String × Nat × String :=
  (t.post_num, t.subject, t.author, t.time, t.comment)

/-- The query row a scanned `thread` record was read from. -/
def unscanThread (t : thread) : ThreadQueryRow :=
  { post_num := t.PostNum
    subject := t.Subject
    author := t.Author
    time := t.Time
    num_replies := t.NumReplies
    latest_reply := t.LatestReply
    comment := t.Comment
    sort_latest_reply := some t.SortLatestReply }

/-! ## Lemmas on the building blocks -/

/-- With a duplicate-free key, filtering on the key of a member keeps that member only. -/
theorem filter_key_singleton {α κ : Type} [DecidableEq κ] (f : α → κ) :
    ∀ (l : List α), (l.map f).Nodup → ∀ a ∈ l, l.filter (fun x => f x == f a) = [a] := by
  intro l
  induction l with
  | nil => intro _ a ha; cases ha
  | cons x l ih =>
    intro hnd a ha
    rw [List.map_cons, List.nodup_cons] at hnd
    obtain ⟨hx, hl⟩ := hnd
    rcases List.mem_cons.1 ha with rfl | hal
    · have hnone : l.filter (fun y => f y == f a) = [] := by
        rw [List.filter_eq_nil_iff]
        intro y hy hfy
        exact hx (List.mem_map.2 ⟨y, hy, by simpa using hfy⟩)
      simp [List.filter_cons, hnone]
    · have hne : ¬ (f x = f a) := by
        intro hxa
        exact hx (List.mem_map.2 ⟨a, hal, hxa.symm⟩)
      simp [List.filter_cons, hne, ih hl a hal]

/-- A key that no row has filters everything out. -/
theorem filter_name_nil (s : Store) (name : String) (h : ∀ b ∈ s.boards, b.name ≠ name) :
    s.boards.filter (fun b => b.name == name) = [] := by
  rw [List.filter_eq_nil_iff]
  intro b hb hbn
  exact h b hb (by simpa using hbn)

/-- Under `boards.name UNIQUE` the rows named like a stored board are that board. -/
theorem filter_name_singleton (s : Store) (hu : uniqueBoardNames s) (b : BoardRow)
    (hb : b ∈ s.boards) : s.boards.filter (fun x => x.name == b.name) = [b] :=
  filter_key_singleton (fun x : BoardRow => x.name) s.boards hu b hb

/-- Under `boards.name UNIQUE` at most one row carries a given name. -/
theorem filter_name_cases (s : Store) (hu : uniqueBoardNames s) (name : String) :
    s.boards.filter (fun x => x.name == name) = [] ∨
      ∃ b ∈ s.boards, b.name = name ∧ s.boards.filter (fun x => x.name == name) = [b] := by
  by_cases h : ∃ b ∈ s.boards, b.name = name
  · obtain ⟨b, hb, hn⟩ := h
    right
    refine ⟨b, hb, hn, ?_⟩
    rw [← hn]
    exact filter_name_singleton s hu b hb
  · left
    apply filter_name_nil
    intro b hb hn
    exact h ⟨b, hb, hn⟩

/-! ## Unknown board, unknown thread -/

/-- C7: for a name that no board of the store carries, `showBoardFromDB`
returns the no-rows error of the board lookup, hence neither a reply (with an
empty thread list or otherwise) nor an error of another kind. -/
theorem showBoardFromDB_unknown_board (s : Store) (name : String)
    (h : ∀ b ∈ s.boards, b.name ≠ name) :
    showBoardFromDB s name = .error .noRows := by
  unfold showBoardFromDB
  rw [filter_name_nil s name h]

/-- Witness of C7: the store `storeFour` has no board `b`. -/
theorem showBoardFromDB_unknown_board_witness :
    (∀ b ∈ storeFour.boards, b.name ≠ "b") ∧
      showBoardFromDB storeFour "b" = .error .noRows :=
  ⟨by decide, showBoardFromDB_unknown_board storeFour "b" (by decide)⟩

/-- When no thread of the store has the number under a board of the name, the
thread-id sub-query has no row. -/
theorem threadIdQuery_nil (s : Store) (board_name : String) (thread_num : Nat)
    (h : ∀ t ∈ s.threads, ∀ b ∈ s.boards,
      ¬ (b.name = board_name ∧ t.board_id = b.id ∧ t.post_num = thread_num)) :
    threadIdQuery s board_name thread_num = [] := by
  unfold threadIdQuery
  rw [List.flatMap, List.flatten_eq_nil_iff]
  intro l hl
  obtain ⟨t, ht, rfl⟩ := List.mem_map.1 hl
  rw [List.map_eq_nil_iff, List.filter_eq_nil_iff]
  intro b hb hcond
  simp only [Bool.and_eq_true, beq_iff_eq] at hcond
  exact h t ht b hb ⟨hcond.1.2, hcond.1.1, hcond.2⟩

/-- C6: when the pair (board name, thread number) resolves to no thread (no
board of that name, or no thread with that number under it), `makePostInDB`
returns the not-null constraint failure instead of a post number, and the
store after the call is the store before it. -/
theorem makePostInDB_unresolved (s : Store) (d : RowDefaults) (board_name : String)
    (thread_num : Nat) (comment author : String)
    (h : ∀ t ∈ s.threads, ∀ b ∈ s.boards,
      ¬ (b.name = board_name ∧ t.board_id = b.id ∧ t.post_num = thread_num)) :
    makePostInDB s d board_name thread_num comment author = (.error .notNullViolation, s) := by
  unfold makePostInDB
  rw [threadIdQuery_nil s board_name thread_num h]
  rfl

/-- Witness of C6: board `a` of `storeFour` has no thread number 2. -/
theorem makePostInDB_unresolved_witness :
    (∀ t ∈ storeFour.threads, ∀ b ∈ storeFour.boards,
      ¬ (b.name = "a" ∧ t.board_id = b.id ∧ t.post_num = 2)) ∧
      makePostInDB storeFour ⟨9, 9, 90⟩ "a" 2 "text" "anon"
        = (.error .notNullViolation, storeFour) :=
  ⟨by decide, makePostInDB_unresolved storeFour ⟨9, 9, 90⟩ "a" 2 "text" "anon" (by decide)⟩

/-! ## `checkIsOp` -/

/-- The result of `checkIsOp` once the board sub-query has produced `bid`. -/
theorem checkIsOp_of_boardId (s : Store) (board_name : String) (thread_num : Nat)
    (bid : Option Nat) (h : scalarSubquery (boardIdQuery s board_name) = .ok bid) :
    checkIsOp s board_name thread_num = .ok (!(s.threads.flatMap (fun t =>
      (s.boards.filter (fun b =>
        t.board_id == b.id && some t.board_id == bid && t.post_num == thread_num)).map
        (fun _ => t.post_num))).isEmpty) := by
  unfold checkIsOp isOpQuery
  rw [h]

/-- C8: under the schema's unique board names, `checkIsOp` returns a boolean
that is true exactly when a thread with the given number exists under the
board of the given name; replacing the comments collection by any other does
not change the result; and for a name no board carries the result is `false`,
not an error. -/
theorem checkIsOp_iff_thread_exists (s : Store) (board_name : String) (thread_num : Nat)
    (hu : uniqueBoardNames s) :
    (∃ v, checkIsOp s board_name thread_num = .ok v ∧
      (v = true ↔ ∃ t ∈ s.threads, ∃ b ∈ s.boards,
        b.name = board_name ∧ t.board_id = b.id ∧ t.post_num = thread_num)) ∧
    (∀ cs : List CommentRow,
      checkIsOp { s with comments := cs } board_name thread_num
        = checkIsOp s board_name thread_num) ∧
    ((∀ b ∈ s.boards, b.name ≠ board_name) →
      checkIsOp s board_name thread_num = .ok false) := by
  refine ⟨?_, fun _ => rfl, ?_⟩
  · rcases filter_name_cases s hu board_name with h | ⟨b, hb, hn, h⟩
    · have hq : scalarSubquery (boardIdQuery s board_name) = .ok none := by
        simp [boardIdQuery, h, scalarSubquery]
      refine ⟨_, checkIsOp_of_boardId s board_name thread_num none hq, ?_⟩
      have hno : ∀ x ∈ s.boards, x.name ≠ board_name := by
        intro x hx hxn
        have : x ∈ s.boards.filter (fun y => y.name == board_name) :=
          List.mem_filter.2 ⟨hx, by simpa using hxn⟩
        rw [h] at this
        cases this
      constructor
      · intro hv
        simp at hv
      · rintro ⟨t, _, x, hx, hxn, _⟩
        exact absurd hxn (hno x hx)
    · have hq : scalarSubquery (boardIdQuery s board_name) = .ok (some b.id) := by
        simp [boardIdQuery, h, scalarSubquery]
      refine ⟨_, checkIsOp_of_boardId s board_name thread_num (some b.id) hq, ?_⟩
      have hsame : ∀ x ∈ s.boards, x.name = board_name → x = b := by
        intro x hx hxn
        have : x ∈ s.boards.filter (fun y => y.name == board_name) :=
          List.mem_filter.2 ⟨hx, by simpa using hxn⟩
        rw [h] at this
        simpa using this
      constructor
      · intro hv
        simp only [Bool.not_eq_true', List.isEmpty_eq_false, ne_eq] at hv
        obtain ⟨p, hp⟩ := List.exists_mem_of_ne_nil _ hv
        rw [List.mem_flatMap] at hp
        obtain ⟨t, ht, hp⟩ := hp
        obtain ⟨x, hx, _⟩ := List.mem_map.1 hp
        rw [List.mem_filter] at hx
        simp only [Bool.and_eq_true, beq_iff_eq, Option.some.injEq] at hx
        exact ⟨t, ht, b, hb, hn, hx.2.1.2, hx.2.2⟩
      · rintro ⟨t, ht, x, hx, hxn, htx, htn⟩
        have hxb : x = b := hsame x hx hxn
        subst hxb
        have hmem : t.post_num ∈ s.threads.flatMap (fun t =>
            (s.boards.filter (fun y =>
              t.board_id == y.id && some t.board_id == some x.id
                && t.post_num == thread_num)).map (fun _ => t.post_num)) := by
          rw [List.mem_flatMap]
          refine ⟨t, ht, List.mem_map.2 ⟨x, List.mem_filter.2 ⟨hx, ?_⟩, rfl⟩⟩
          simp [htx, htn]
        cases hl : s.threads.flatMap (fun t =>
            (s.boards.filter (fun y =>
              t.board_id == y.id && some t.board_id == some x.id
                && t.post_num == thread_num)).map (fun _ => t.post_num)) with
        | nil => rw [hl] at hmem; cases hmem
        | cons _ _ => rfl
  · intro hno
    have hq : scalarSubquery (boardIdQuery s board_name) = .ok none := by
      simp [boardIdQuery, filter_name_nil s board_name hno, scalarSubquery]
    rw [checkIsOp_of_boardId s board_name thread_num none hq]
    simp

/-- Witness of C8: thread number 1 exists under board `a` of `storeFour`. -/
theorem checkIsOp_iff_thread_exists_witness :
    uniqueBoardNames storeFour ∧
    ((∃ v, checkIsOp storeFour "a" 1 = .ok v ∧
      (v = true ↔ ∃ t ∈ storeFour.threads, ∃ b ∈ storeFour.boards,
        b.name = "a" ∧ t.board_id = b.id ∧ t.post_num = 1)) ∧
    (∀ cs : List CommentRow,
      checkIsOp { storeFour with comments := cs } "a" 1 = checkIsOp storeFour "a" 1) ∧
    ((∀ b ∈ storeFour.boards, b.name ≠ "a") → checkIsOp storeFour "a" 1 = .ok false)) :=
  ⟨by decide, checkIsOp_iff_thread_exists storeFour "a" 1 (by decide)⟩

/-! ## The thread listing of a board -/

/-- A scan that succeeds returns the record the row determines. -/
theorem scanThread_ok (q : ThreadQueryRow) (t : thread) (h : scanThread q = .ok t) :
    q = unscanThread t := by
  unfold scanThread at h
  cases hq : q.sort_latest_reply with
  | none => rw [hq] at h; cases h
  | some st =>
    rw [hq] at h
    injection h with h
    subst h
    cases q
    simp_all [unscanThread]

/-- A scan loop that succeeds has read every row. -/
theorem scanThreads_ok : ∀ (rows : List ThreadQueryRow) (ts : List thread),
    scanThreads rows = .ok ts → rows = ts.map unscanThread := by
  intro rows
  induction rows with
  | nil =>
    intro ts h
    simp [scanThreads] at h
    subst h
    rfl
  | cons q rows ih =>
    intro ts h
    unfold scanThreads at h
    cases hq : scanThread q with
    | error e => rw [hq] at h; cases h
    | ok t =>
      rw [hq] at h
      cases hr : scanThreads rows with
      | error e => rw [hr] at h; cases h
      | ok ts2 =>
        rw [hr] at h
        injection h with h
        subst h
        rw [List.map_cons, ← ih ts2 hr, ← scanThread_ok q t hq]

/-- What a successful `showBoardFromDB` has gone through: one board row of the
name, and a scan of the ordered thread rows of that board. -/
theorem showBoardFromDB_ok_inv (s : Store) (name : String) (r : boardReply)
    (h : showBoardFromDB s name = .ok r) :
    ∃ b0, s.boards.filter (fun b => b.name == name) = [b0] ∧ r.Board = scanBoardRow b0 ∧
      List.insertionSort rowGe
        ((s.threads.filter (fun t => some t.board_id == some b0.id)).map
          (threadQueryRow s (some b0.bump_limit))) = r.Threads.map unscanThread := by
  unfold showBoardFromDB at h
  cases hf : s.boards.filter (fun b => b.name == name) with
  | nil => rw [hf] at h; cases h
  | cons b0 rest =>
    rw [hf] at h
    simp only at h
    cases rest with
    | cons b1 rest2 =>
      simp [boardThreadsQuery, boardIdQuery, hf, scalarSubquery] at h
    | nil =>
      refine ⟨b0, rfl, ?_⟩
      simp only [boardThreadsQuery, boardIdQuery, bumpLimitQuery, hf, List.map_cons,
        List.map_nil, scalarSubquery] at h
      cases hs : scanThreads (List.insertionSort rowGe
          ((s.threads.filter (fun t => some t.board_id == some b0.id)).map
            (threadQueryRow s (some b0.bump_limit)))) with
      | error e => rw [hs] at h; cases h
      | ok ts =>
        rw [hs] at h
        injection h with h
        subst h
        exact ⟨rfl, scanThreads_ok _ _ hs⟩

/-- C4: in a successful reply of `showBoardFromDB` for an existing board the
thread list holds, up to order, exactly the stored threads of that board (each
once, none of another board), and every earlier entry has a sort timestamp
greater than or equal to that of every later entry, adjacent pairs included. -/
theorem showBoardFromDB_threads_sorted (s : Store) (name : String) (r : boardReply)
    (b : BoardRow) (hb : b ∈ s.boards) (hn : b.name = name)
    (h : showBoardFromDB s name = .ok r) :
    (r.Threads.map threadKey).Perm
      ((s.threads.filter (fun t => t.board_id == b.id)).map rowKey) ∧
    List.Pairwise (fun x y => y.SortLatestReply ≤ x.SortLatestReply) r.Threads ∧
    List.Chain' (fun x y => y.SortLatestReply ≤ x.SortLatestReply) r.Threads := by
  obtain ⟨b0, hf, _, hsort⟩ := showBoardFromDB_ok_inv s name r h
  have hb0 : b = b0 := by
    have : b ∈ s.boards.filter (fun x => x.name == name) :=
      List.mem_filter.2 ⟨hb, by simpa using hn⟩
    rw [hf] at this
    simpa using this
  subst hb0
  have hperm := List.perm_insertionSort rowGe
    ((s.threads.filter (fun t => some t.board_id == some b.id)).map
      (threadQueryRow s (some b.bump_limit)))
  have hsorted := List.sorted_insertionSort rowGe
    ((s.threads.filter (fun t => some t.board_id == some b.id)).map
      (threadQueryRow s (some b.bump_limit)))
  rw [hsort] at hperm hsorted
  have hfilter : s.threads.filter (fun t => some t.board_id == some b.id)
      = s.threads.filter (fun t => t.board_id == b.id) := by
    apply List.filter_congr
    intro t _
    simp
  rw [hfilter] at hperm
  have hpw : List.Pairwise (fun x y => y.SortLatestReply ≤ x.SortLatestReply) r.Threads := by
    have := List.pairwise_map.1 hsorted
    refine this.imp ?_
    intro x y hxy
    simpa [rowGe, unscanThread, sortKeyGe] using hxy
  refine ⟨?_, hpw, hpw.chain'⟩
  have := hperm.map (fun q : ThreadQueryRow =>
    (q.post_num, q.subject, q.author, q.time, q.comment))
  simpa [List.map_map, Function.comp_def, threadKey, rowKey, unscanThread, threadQueryRow]
    using this

/-! ## The sort timestamp below the bump limit -/

/-- `MAX(comments.time)` over a non-empty group of comments is the time of one
of them and bounds the time of each. -/
theorem sqlMax_comments (cs : List CommentRow) (hne : cs ≠ []) :
    ∃ m, sqlMax ((cs.map some).map (fun oc => oc.map (fun c => c.time))) = some m ∧
      (∃ c ∈ cs, c.time = m) ∧ ∀ c ∈ cs, c.time ≤ m := by
  induction cs with
  | nil => exact absurd rfl hne
  | cons c cs ih =>
    cases cs with
    | nil => exact ⟨c.time, by simp [sqlMax], ⟨c, by simp, rfl⟩, by simp⟩
    | cons c2 cs2 =>
      obtain ⟨m, hm, ⟨w, hw, hwm⟩, hall⟩ := ih (by simp)
      refine ⟨max c.time m, ?_, ?_, ?_⟩
      · simp only [List.map_cons, Option.map_some'] at hm ⊢
        rw [sqlMax, hm]
      · rcases Nat.le_total c.time m with hle | hle
        · exact ⟨w, List.mem_cons_of_mem _ hw, by rw [hwm, Nat.max_eq_right hle]⟩
        · exact ⟨c, by simp, by rw [Nat.max_eq_left hle]⟩
      · intro x hx
        rcases List.mem_cons.1 hx with rfl | hx2
        · exact Nat.le_max_left _ _
        · exact Nat.le_trans (hall x hx2) (Nat.le_max_right _ _)

/-- The sort column of a thread without comments is its creation time. -/
theorem sort_no_comments (s : Store) (bump : Option Nat) (t : ThreadRow)
    (h : s.comments.filter (fun c => c.reply_to == t.id) = []) :
    (threadQueryRow s bump t).sort_latest_reply = some t.time := by
  simp [threadQueryRow, leftJoinComments, h, sqlMax, sortLatestReplyExpr]

/-- The sort column of a thread with comments, fewer than the bump limit, is
the maximum of their times. -/
theorem sort_below_limit (s : Store) (n : Nat) (t : ThreadRow)
    (hne : s.comments.filter (fun c => c.reply_to == t.id) ≠ [])
    (hlt : (s.comments.filter (fun c => c.reply_to == t.id)).length < n) :
    ∃ m, (threadQueryRow s (some n) t).sort_latest_reply = some m ∧
      (∃ c ∈ s.comments.filter (fun c => c.reply_to == t.id), c.time = m) ∧
      ∀ c ∈ s.comments.filter (fun c => c.reply_to == t.id), c.time ≤ m := by
  obtain ⟨m, hm, hex, hall⟩ := sqlMax_comments _ hne
  refine ⟨m, ?_, hex, hall⟩
  cases hf : s.comments.filter (fun c => c.reply_to == t.id) with
  | nil => exact absurd hf hne
  | cons c cs =>
    rw [hf] at hm hlt
    have hlen : ¬ (n ≤ (c :: cs).length) := Nat.not_le.2 hlt
    simp only [List.length_cons] at hlen
    simp only [threadQueryRow, leftJoinComments, hf, hm, sortLatestReplyExpr,
      List.length_map, List.length_cons, Option.isSome_some, Bool.true_and,
      decide_eq_true_eq, hlen, if_false, if_true]

/-! ## Resolving one thread of a board -/

/-- A comprehension that yields at most one value per row is a filter and a map. -/
theorem flatMap_ite_singleton {α β : Type} (p : α → Bool) (f : α → β) :
    ∀ l : List α, l.flatMap (fun x => if p x then [f x] else []) = (l.filter p).map f := by
  intro l
  induction l with
  | nil => rfl
  | cons x l ih =>
    rw [List.flatMap_cons, ih]
    cases hp : p x <;> simp [List.filter_cons, hp]

/-- Under the unique post numbers of a board, the rows with the board and
number of a stored thread are that thread. -/
theorem filter_thread_singleton (s : Store) (hk : uniqueThreadNums s) (t : ThreadRow)
    (ht : t ∈ s.threads) :
    s.threads.filter (fun x => x.board_id == t.board_id && x.post_num == t.post_num) = [t] := by
  have := filter_key_singleton (fun x : ThreadRow => (x.board_id, x.post_num)) s.threads hk t ht
  rw [← this]
  apply List.filter_congr
  intro x _
  rw [Bool.eq_iff_iff]
  show _ ↔ decide ((x.board_id, x.post_num) = (t.board_id, t.post_num)) = true
  simp

/-- The board sub-queries on a store with unique board names. -/
theorem board_subqueries (s : Store) (hu : uniqueBoardNames s) (b : BoardRow)
    (hb : b ∈ s.boards) :
    scalarSubquery (boardIdQuery s b.name) = .ok (some b.id) ∧
      scalarSubquery (bumpLimitQuery s b.name) = .ok (some b.bump_limit) := by
  simp [boardIdQuery, bumpLimitQuery, filter_name_singleton s hu b hb, scalarSubquery]

/-- The thread-id sub-query resolves a stored thread of a stored board to its id. -/
theorem threadIdQuery_singleton (s : Store) (hu : uniqueBoardNames s)
    (hk : uniqueThreadNums s) (b : BoardRow) (hb : b ∈ s.boards) (t : ThreadRow)
    (ht : t ∈ s.threads) (htb : t.board_id = b.id) :
    threadIdQuery s b.name t.post_num = [t.id] := by
  unfold threadIdQuery
  have hinner : ∀ x : ThreadRow,
      (s.boards.filter (fun y =>
        x.board_id == y.id && y.name == b.name && x.post_num == t.post_num)).map
        (fun _ => x.id)
      = if (x.board_id == t.board_id && x.post_num == t.post_num) then [x.id] else [] := by
    intro x
    have hsplit : s.boards.filter (fun y =>
        x.board_id == y.id && y.name == b.name && x.post_num == t.post_num)
        = (s.boards.filter (fun y => y.name == b.name)).filter
            (fun y => x.board_id == y.id && x.post_num == t.post_num) := by
      rw [List.filter_filter]
      apply List.filter_congr
      intro y _
      cases (x.board_id == y.id) <;> cases (y.name == b.name) <;>
        cases (x.post_num == t.post_num) <;> rfl
    rw [hsplit, filter_name_singleton s hu b hb, htb]
    cases hc : (x.board_id == b.id && x.post_num == t.post_num) <;>
      simp [List.filter_cons, hc]
  simp only [hinner]
  rw [flatMap_ite_singleton (fun x : ThreadRow =>
    x.board_id == t.board_id && x.post_num == t.post_num) (fun x => x.id),
    filter_thread_singleton s hk t ht]
  rfl

/-- The thread query of `showThreadFromDB` for a stored thread has one row. -/
theorem threadQuery_singleton (s : Store) (hu : uniqueBoardNames s)
    (hk : uniqueThreadNums s) (b : BoardRow) (hb : b ∈ s.boards) (t : ThreadRow)
    (ht : t ∈ s.threads) (htb : t.board_id = b.id) :
    threadQuery s b.name t.post_num = .ok [threadQueryRow s (some b.bump_limit) t] := by
  unfold threadQuery
  obtain ⟨h1, h2⟩ := board_subqueries s hu b hb
  rw [h1, h2]
  have hfilter : s.threads.filter
      (fun x => some x.board_id == some b.id && x.post_num == t.post_num) = [t] := by
    rw [← filter_thread_singleton s hk t ht, htb]
    apply List.filter_congr
    intro x _
    simp
  simp only [hfilter, List.map_cons, List.map_nil, List.insertionSort, List.orderedInsert]

/-- `showThreadFromDB` on a stored thread whose sort column is not `NULL`
returns the record scanned from the row of that thread. -/
theorem showThreadFromDB_of_sort (s : Store) (hu : uniqueBoardNames s)
    (hk : uniqueThreadNums s) (b : BoardRow) (hb : b ∈ s.boards) (t : ThreadRow)
    (ht : t ∈ s.threads) (htb : t.board_id = b.id) (v : Nat)
    (hv : (threadQueryRow s (some b.bump_limit) t).sort_latest_reply = some v) :
    ∃ r, showThreadFromDB s b.name t.post_num = .ok r ∧
      unscanThread r.Thread = threadQueryRow s (some b.bump_limit) t := by
  unfold showThreadFromDB
  rw [threadQuery_singleton s hu hk b hb t ht htb]
  simp only [scanThread, hv]
  unfold postsQuery
  rw [(board_subqueries s hu b hb).1, threadIdQuery_singleton s hu hk b hb t ht htb]
  simp only [scalarSubquery]
  refine ⟨_, rfl, ?_⟩
  simp only [unscanThread]
  rw [← hv]

/-- `showThreadFromDB` on a stored thread whose sort column is `NULL` fails in
the scan. -/
theorem showThreadFromDB_of_null_sort (s : Store) (hu : uniqueBoardNames s)
    (hk : uniqueThreadNums s) (b : BoardRow) (hb : b ∈ s.boards) (t : ThreadRow)
    (ht : t ∈ s.threads) (htb : t.board_id = b.id)
    (hv : (threadQueryRow s (some b.bump_limit) t).sort_latest_reply = none) :
    showThreadFromDB s b.name t.post_num = .error .scanNull := by
  unfold showThreadFromDB
  rw [threadQuery_singleton s hu hk b hb t ht htb]
  simp only [scanThread, hv]

/-! ## Entries of a board listing -/

/-- A successful board listing has an entry read from the row of each stored
thread of the board. -/
theorem showBoardFromDB_entry (s : Store) (b : BoardRow) (t : ThreadRow) (r : boardReply)
    (hb : b ∈ s.boards) (ht : t ∈ s.threads) (htb : t.board_id = b.id)
    (h : showBoardFromDB s b.name = .ok r) :
    ∃ e ∈ r.Threads, unscanThread e = threadQueryRow s (some b.bump_limit) t := by
  obtain ⟨b0, hf, _, hsort⟩ := showBoardFromDB_ok_inv s b.name r h
  have hb0 : b = b0 := by
    have : b ∈ s.boards.filter (fun x => x.name == b.name) :=
      List.mem_filter.2 ⟨hb, by simp⟩
    rw [hf] at this
    simpa using this
  subst hb0
  have hmem : threadQueryRow s (some b.bump_limit) t ∈
      (s.threads.filter (fun x => some x.board_id == some b.id)).map
        (threadQueryRow s (some b.bump_limit)) :=
    List.mem_map.2 ⟨t, List.mem_filter.2 ⟨ht, by simp [htb]⟩, rfl⟩
  have hmem2 := (List.perm_insertionSort rowGe _).mem_iff.2 hmem
  rw [hsort] at hmem2
  obtain ⟨e, he, heq⟩ := List.mem_map.1 hmem2
  exact ⟨e, he, heq⟩

/-- Under unique post numbers, the entry of a successful board listing that
carries the number of a stored thread of the board is read from its row. -/
theorem showBoardFromDB_entry_inv (s : Store) (hk : uniqueThreadNums s) (b : BoardRow)
    (t : ThreadRow) (r : boardReply) (hb : b ∈ s.boards) (ht : t ∈ s.threads)
    (htb : t.board_id = b.id) (h : showBoardFromDB s b.name = .ok r) :
    ∀ e ∈ r.Threads, e.PostNum = t.post_num →
      unscanThread e = threadQueryRow s (some b.bump_limit) t := by
  intro e he hnum
  obtain ⟨b0, hf, _, hsort⟩ := showBoardFromDB_ok_inv s b.name r h
  have hb0 : b = b0 := by
    have : b ∈ s.boards.filter (fun x => x.name == b.name) :=
      List.mem_filter.2 ⟨hb, by simp⟩
    rw [hf] at this
    simpa using this
  subst hb0
  have hmem : unscanThread e ∈ r.Threads.map unscanThread := List.mem_map.2 ⟨e, he, rfl⟩
  rw [← hsort] at hmem
  have hmem2 := (List.perm_insertionSort rowGe _).mem_iff.1 hmem
  obtain ⟨x, hx, hxe⟩ := List.mem_map.1 hmem2
  obtain ⟨hxs, hxb⟩ := List.mem_filter.1 hx
  have hxb2 : x.board_id = b.id := by simpa using hxb
  have hxn : x.post_num = t.post_num := by
    have := congrArg ThreadQueryRow.post_num hxe
    simp only [threadQueryRow, unscanThread] at this
    rw [this, hnum]
  have hxt : x ∈ s.threads.filter
      (fun y => y.board_id == t.board_id && y.post_num == t.post_num) :=
    List.mem_filter.2 ⟨hxs, by simp [hxb2, htb, hxn]⟩
  rw [filter_thread_singleton s hk t ht] at hxt
  have : x = t := by simpa using hxt
  rw [← hxe, this]

/-- C2: on a store with unique board names and unique post numbers per board,
a thread with fewer comments than the bump limit of its board has one sort
timestamp `v`: the thread's creation time when it has no comment, otherwise the
largest of its comment times (the time of one of its comments, not below any of
them).  `showThreadFromDB` returns the thread with `SortLatestReply = v`, and
every reply of `showBoardFromDB` lists the thread with `SortLatestReply = v`. -/
theorem sort_timestamp_below_bump_limit (s : Store) (b : BoardRow) (t : ThreadRow)
    (hu : uniqueBoardNames s) (hk : uniqueThreadNums s)
    (hb : b ∈ s.boards) (ht : t ∈ s.threads) (htb : t.board_id = b.id)
    (hlt : (s.comments.filter (fun c => c.reply_to == t.id)).length < b.bump_limit) :
    ∃ v,
      (s.comments.filter (fun c => c.reply_to == t.id) = [] → v = t.time) ∧
      (s.comments.filter (fun c => c.reply_to == t.id) ≠ [] →
        (∃ c ∈ s.comments.filter (fun c => c.reply_to == t.id), c.time = v) ∧
        ∀ c ∈ s.comments.filter (fun c => c.reply_to == t.id), c.time ≤ v) ∧
      (∃ r, showThreadFromDB s b.name t.post_num = .ok r ∧
        threadKey r.Thread = rowKey t ∧ r.Thread.SortLatestReply = v) ∧
      (∀ r, showBoardFromDB s b.name = .ok r →
        (∃ e ∈ r.Threads, threadKey e = rowKey t ∧ e.SortLatestReply = v) ∧
        (∀ e ∈ r.Threads, e.PostNum = t.post_num → e.SortLatestReply = v)) := by
  have hcol : ∃ v, (threadQueryRow s (some b.bump_limit) t).sort_latest_reply = some v ∧
      (s.comments.filter (fun c => c.reply_to == t.id) = [] → v = t.time) ∧
      (s.comments.filter (fun c => c.reply_to == t.id) ≠ [] →
        (∃ c ∈ s.comments.filter (fun c => c.reply_to == t.id), c.time = v) ∧
        ∀ c ∈ s.comments.filter (fun c => c.reply_to == t.id), c.time ≤ v) := by
    by_cases hnil : s.comments.filter (fun c => c.reply_to == t.id) = []
    · exact ⟨t.time, sort_no_comments s _ t hnil, fun _ => rfl, fun hne => absurd hnil hne⟩
    · obtain ⟨m, hm, hex, hall⟩ := sort_below_limit s b.bump_limit t hnil hlt
      exact ⟨m, hm, fun h => absurd h hnil, fun _ => ⟨hex, hall⟩⟩
  obtain ⟨v, hv, h0, h1⟩ := hcol
  have hfields : ∀ e : thread, unscanThread e = threadQueryRow s (some b.bump_limit) t →
      threadKey e = rowKey t ∧ e.SortLatestReply = v := by
    intro e he
    have hs := congrArg ThreadQueryRow.sort_latest_reply he
    rw [hv] at hs
    have h1 := congrArg ThreadQueryRow.post_num he
    have h2 := congrArg ThreadQueryRow.subject he
    have h3 := congrArg ThreadQueryRow.author he
    have h4 := congrArg ThreadQueryRow.time he
    have h5 := congrArg ThreadQueryRow.comment he
    simp only [unscanThread, threadQueryRow] at h1 h2 h3 h4 h5 hs
    refine ⟨?_, by simpa using hs⟩
    simp only [threadKey, rowKey, h1, h2, h3, h4, h5]
  refine ⟨v, h0, h1, ?_, ?_⟩
  · obtain ⟨r, hr, hrow⟩ := showThreadFromDB_of_sort s hu hk b hb t ht htb v hv
    exact ⟨r, hr, hfields r.Thread hrow⟩
  · intro r hr
    constructor
    · obtain ⟨e, he, hrow⟩ := showBoardFromDB_entry s b t r hb ht htb hr
      exact ⟨e, he, hfields e hrow⟩
    · intro e he hnum
      exact (hfields e (showBoardFromDB_entry_inv s hk b t r hb ht htb hr e he hnum)).2

/-- Witness of C2: thread `T` of `storeListing` has two comments under a bump
limit of three. -/
theorem sort_timestamp_below_bump_limit_witness :
    uniqueBoardNames storeListing ∧ uniqueThreadNums storeListing ∧
    boardA ∈ storeListing.boards ∧ threadT ∈ storeListing.threads ∧
    threadT.board_id = boardA.id ∧
    (storeListing.comments.filter (fun c => c.reply_to == threadT.id)).length
      < boardA.bump_limit ∧
    ∃ v,
      (storeListing.comments.filter (fun c => c.reply_to == threadT.id) = [] →
        v = threadT.time) ∧
      (storeListing.comments.filter (fun c => c.reply_to == threadT.id) ≠ [] →
        (∃ c ∈ storeListing.comments.filter (fun c => c.reply_to == threadT.id),
          c.time = v) ∧
        ∀ c ∈ storeListing.comments.filter (fun c => c.reply_to == threadT.id),
          c.time ≤ v) ∧
      (∃ r, showThreadFromDB storeListing boardA.name threadT.post_num = .ok r ∧
        threadKey r.Thread = rowKey threadT ∧ r.Thread.SortLatestReply = v) ∧
      (∀ r, showBoardFromDB storeListing boardA.name = .ok r →
        (∃ e ∈ r.Threads, threadKey e = rowKey threadT ∧ e.SortLatestReply = v) ∧
        (∀ e ∈ r.Threads, e.PostNum = threadT.post_num → e.SortLatestReply = v)) :=
  ⟨by decide, by decide, by decide, by decide, rfl, by decide,
    sort_timestamp_below_bump_limit storeListing boardA threadT (by decide) (by decide)
      (by decide) (by decide) rfl (by decide)⟩

/-- Witness of C4: the listing of board `a` of `storeListing` is `replyListing`,
thread `T` (sort time 20) before thread `U` (sort time 15), thread `V` of board
`b` left out. -/
theorem showBoardFromDB_threads_sorted_witness :
    boardA ∈ storeListing.boards ∧ boardA.name = "a" ∧
    showBoardFromDB storeListing "a" = .ok replyListing ∧
    ((replyListing.Threads.map threadKey).Perm
      ((storeListing.threads.filter (fun t => t.board_id == boardA.id)).map rowKey) ∧
    List.Pairwise (fun x y => y.SortLatestReply ≤ x.SortLatestReply) replyListing.Threads ∧
    List.Chain' (fun x y => y.SortLatestReply ≤ x.SortLatestReply) replyListing.Threads) :=
  ⟨by decide, rfl, by decide,
    showBoardFromDB_threads_sorted storeListing "a" replyListing boardA (by decide) rfl
      (by decide)⟩

/-! ## Creating a thread and reading it back -/

/-- C5: on a store with unique board names, unique post numbers per board and
comments that refer to stored threads, `makeThreadInDB` on an existing board,
with a row identity and a post number the store has not used on that board,
returns that post number, and `showThreadFromDB` on the resulting store returns
for it a thread whose `Subject` is absent when the subject given was the empty
string and is the subject given when it was not empty. -/
theorem makeThread_showThread_subject (s : Store) (b : BoardRow) (d : RowDefaults)
    (comment author subject : String)
    (hu : uniqueBoardNames s) (hk : uniqueThreadNums s) (hfk : commentsReferThreads s)
    (hb : b ∈ s.boards)
    (hid : d.id ∉ s.threads.map (fun t => t.id))
    (hnum : (b.id, d.post_num) ∉ s.threads.map (fun t => (t.board_id, t.post_num))) :
    (makeThreadInDB s d b.name comment author subject).1 = .ok d.post_num ∧
    ∃ r, showThreadFromDB (makeThreadInDB s d b.name comment author subject).2 b.name
        d.post_num = .ok r ∧
      r.Thread.PostNum = d.post_num ∧
      (subject = "" → r.Thread.Subject = none) ∧
      (subject ≠ "" → r.Thread.Subject = some subject) := by
  have hmk : makeThreadInDB s d b.name comment author subject =
      (.ok d.post_num,
        { s with threads := s.threads ++
            [{ id := d.id, board_id := b.id, post_num := d.post_num,
               subject := subjectValue subject, author := author, time := d.time,
               comment := comment }] }) := by
    unfold makeThreadInDB
    rw [(board_subqueries s hu b hb).1]
    rfl
  rw [hmk]
  refine ⟨rfl, ?_⟩
  simp only
  have hk2 : uniqueThreadNums
      { s with threads := s.threads ++
          [{ id := d.id, board_id := b.id, post_num := d.post_num,
             subject := subjectValue subject, author := author, time := d.time,
             comment := comment }] } := by
    unfold uniqueThreadNums at hk ⊢
    simp only [List.map_append, List.map_cons, List.map_nil]
    rw [List.nodup_append]
    refine ⟨hk, List.nodup_singleton _, ?_⟩
    intro x hx1 hx2
    rw [List.mem_singleton] at hx2
    rw [hx2] at hx1
    exact hnum hx1
  have hnocomments :
      s.comments.filter (fun c => c.reply_to == d.id) = [] := by
    rw [List.filter_eq_nil_iff]
    intro c hc hcd
    have hcd2 : c.reply_to = d.id := by simpa using hcd
    exact hid (hcd2 ▸ hfk c hc)
  obtain ⟨r, hr, hrow⟩ := showThreadFromDB_of_sort
    { s with threads := s.threads ++
        [{ id := d.id, board_id := b.id, post_num := d.post_num,
           subject := subjectValue subject, author := author, time := d.time,
           comment := comment }] }
    hu hk2 b hb
    { id := d.id, board_id := b.id, post_num := d.post_num,
      subject := subjectValue subject, author := author, time := d.time,
      comment := comment }
    (by simp) rfl d.time (sort_no_comments _ _ _ hnocomments)
  refine ⟨r, hr, ?_, ?_, ?_⟩
  · have := congrArg ThreadQueryRow.post_num hrow
    simpa [unscanThread, threadQueryRow] using this
  · intro hs
    have := congrArg ThreadQueryRow.subject hrow
    simpa [unscanThread, threadQueryRow, subjectValue, hs] using this
  · intro hs
    have := congrArg ThreadQueryRow.subject hrow
    simpa [unscanThread, threadQueryRow, subjectValue, hs] using this

/-- Witness of C5: a thread with the empty subject created on board `a` of
`storeFour`, the store supplying row identity 2, post number 2 and time 50. -/
theorem makeThread_showThread_subject_witness :
    uniqueBoardNames storeFour ∧ uniqueThreadNums storeFour ∧
    commentsReferThreads storeFour ∧ boardA ∈ storeFour.boards ∧
    (2 ∉ storeFour.threads.map (fun t => t.id)) ∧
    ((boardA.id, 2) ∉ storeFour.threads.map (fun t => (t.board_id, t.post_num))) ∧
    ((makeThreadInDB storeFour ⟨2, 2, 50⟩ boardA.name "body" "anon" "").1 = .ok 2 ∧
    ∃ r, showThreadFromDB (makeThreadInDB storeFour ⟨2, 2, 50⟩ boardA.name "body" "anon" "").2
        boardA.name 2 = .ok r ∧
      r.Thread.PostNum = 2 ∧
      (("" : String) = "" → r.Thread.Subject = none) ∧
      (("" : String) ≠ "" → r.Thread.Subject = some "")) :=
  ⟨by decide, by decide, by decide, by decide, by decide, by decide,
    makeThread_showThread_subject storeFour boardA ⟨2, 2, 50⟩ "body" "anon" ""
      (by decide) (by decide) (by decide) (by decide) (by decide) (by decide)⟩

/-! ## The sort timestamp at and above the bump limit -/

/-- The sort column of a thread with at least `n` comments (and at least one)
under bump limit `n` is the time of the row at offset `n` of the scan of the
whole `comments` table, `NULL` when the table has no such row. -/
theorem sort_at_limit (s : Store) (n : Nat) (t : ThreadRow)
    (hne : s.comments.filter (fun c => c.reply_to == t.id) ≠ [])
    (hge : n ≤ (s.comments.filter (fun c => c.reply_to == t.id)).length) :
    (threadQueryRow s (some n) t).sort_latest_reply
      = ((s.comments.map (fun c => c.time)).drop n).head? := by
  obtain ⟨m, hm, _, _⟩ := sqlMax_comments _ hne
  cases hf : s.comments.filter (fun c => c.reply_to == t.id) with
  | nil => exact absurd hf hne
  | cons c cs =>
    rw [hf] at hm hge
    simp only [List.length_cons] at hge
    simp only [threadQueryRow, leftJoinComments, hf, hm, sortLatestReplyExpr,
      List.length_map, List.length_cons, Option.isSome_some, Bool.true_and,
      decide_eq_true_eq, hge, if_true, offsetCommentTime, Option.getD_some]

/-- An appended comment does not move the row at offset `n` of a `comments`
table that already holds more than `n` rows. -/
theorem offsetCommentTime_append (s : Store) (n : Nat) (c : CommentRow)
    (h : n < s.comments.length) :
    offsetCommentTime { s with comments := s.comments ++ [c] } (some n)
      = offsetCommentTime s (some n) := by
  simp only [offsetCommentTime, Option.getD_some, List.map_append, List.map_cons,
    List.map_nil]
  have hlen : n ≤ (s.comments.map (fun c => c.time)).length := by
    rw [List.length_map]; exact Nat.le_of_lt h
  rw [List.drop_append_of_le_length hlen]
  cases hd : (s.comments.map (fun c => c.time)).drop n with
  | nil =>
    have := congrArg List.length hd
    simp only [List.length_drop, List.length_map, List.length_nil] at this
    omega
  | cons x xs => rfl

/-- C1 (evaluation of the code): with `bump_limit = 3` and a single thread
whose comments are at times 10 < 20 < 30 < 40, `showBoardFromDB` and
`showThreadFromDB` give the thread the sort timestamp 40, the row at offset 3
of the `comments` table, and not 30, the time of its third comment; and in
`storeCross`, where the thread has exactly the comments at 10 < 20 < 30, they
give it 90, the time of a comment of another thread. -/
theorem sort_timestamp_at_limit_is_offset_row :
    boardA.bump_limit = 3 ∧
    (storeFour.comments.filter (fun c => c.reply_to == threadT.id)).map (fun c => c.time)
      = [10, 20, 30, 40] ∧
    (showBoardFromDB storeFour "a").map
      (fun r => r.Threads.map (fun e => (e.PostNum, e.SortLatestReply))) = .ok [(1, 40)] ∧
    (showThreadFromDB storeFour "a" 1).map (fun r => r.Thread.SortLatestReply) = .ok 40 ∧
    (storeCross.comments.filter (fun c => c.reply_to == threadT.id)).map (fun c => c.time)
      = [10, 20, 30] ∧
    (showThreadFromDB storeCross "a" 1).map (fun r => r.Thread.SortLatestReply) = .ok 90 ∧
    (showBoardFromDB storeCross "a").map
      (fun r => r.Threads.map (fun e => (e.PostNum, e.SortLatestReply)))
      = .ok [(1, 90), (2, 90)] := by
  decide

/-- C3 (evaluation of the code): in `storeExact` thread 1 of board `a` has
three comments under `bump_limit = 3` and `showThreadFromDB` fails on it, its
sort column being `NULL`; `makePostInDB` then appends a fourth comment at time
40, giving `storeFour`, where `showThreadFromDB` returns sort timestamp 40. -/
theorem sort_timestamp_changes_on_append :
    (storeExact.comments.filter (fun c => c.reply_to == threadT.id)).length = 3 ∧
    showThreadFromDB storeExact "a" 1 = .error .scanNull ∧
    makePostInDB storeExact ⟨4, 5, 40⟩ "a" 1 "re" "anon" = (.ok 5, storeFour) ∧
    (showThreadFromDB storeFour "a" 1).map (fun r => r.Thread.SortLatestReply) = .ok 40 := by
  decide

/-- C10 (evaluation of the code): `storeExact` satisfies the schema
constraints and has board `a`, whose only thread has reached the bump limit
while the `comments` table has no row at offset 3; its sort column is `NULL`
and `showBoardFromDB` returns the scan error. -/
theorem showBoardFromDB_fails_on_null_sort :
    uniqueBoardNames storeExact ∧ uniqueThreadNums storeExact ∧
    commentsReferThreads storeExact ∧ boardA ∈ storeExact.boards ∧
    (threadQueryRow storeExact (some 3) threadT).sort_latest_reply = none ∧
    showBoardFromDB storeExact "a" = .error .scanNull := by
  decide

/-! ## The board record -/

/-- The board record of a successful `showBoardFromDB` carries the name and
description of the board row and the decimal text of its category reference. -/
theorem showBoardFromDB_board (s : Store) (b : BoardRow) (r : boardReply)
    (hb : b ∈ s.boards) (h : showBoardFromDB s b.name = .ok r) :
    r.Board = { Name := b.name, Description := b.description,
                Category := b.category.map (fun k => Nat.repr k) } := by
  obtain ⟨b0, hf, hboard, _⟩ := showBoardFromDB_ok_inv s b.name r h
  have hb0 : b = b0 := by
    have : b ∈ s.boards.filter (fun x => x.name == b.name) :=
      List.mem_filter.2 ⟨hb, by simp⟩
    rw [hf] at this
    simpa using this
  subst hb0
  rw [hboard]
  rfl

/-- C9 (evaluation of the code): for board `a` of `storeFour`, which refers to
category 7 named `tech`, `getBoardsFromDB` lists the category as `tech` and
`showBoardFromDB` returns the category as `7`; name and description agree. -/
theorem showBoardFromDB_category_is_reference :
    storeFour.categories = [{ id := 7, name := "tech" }] ∧
    boardA.category = some 7 ∧
    getBoardsFromDB storeFour
      = .ok [{ Name := "a", Description := some "general", Category := some "tech" }] ∧
    (showBoardFromDB storeFour "a").map (fun r => r.Board)
      = .ok { Name := "a", Description := some "general", Category := some "7" } := by
  decide

end Eggchan
